import Mathlib

/-!
Verification development for the Reddit-Lead-Manager repository.

The Python code manipulates pandas DataFrames.  We embed a DataFrame as a
`Table`: a header (list of column names) together with rows, each row an
association list from column name to cell value.  A cell value (`Val`) is a
string, an integer, or the missing marker NaN, mirroring the values that
actually flow through this code base.
-/

/-- Cell value of a DataFrame: a string, an integer, a float, a boolean,
or missing (NaN).  A float cell is represented by the decimal literal it
prints as (`to_csv` renders a float as its shortest repr, and parsing that
literal back recovers the value, so the literal is a faithful proxy); the
verified statements never inspect float cells. -/
inductive Val where
  | vstr (s : String)
  | vint (n : Int)
  | vfloat (lit : String)
  | vbool (b : Bool)
  | vnan
deriving DecidableEq, Repr

/-- Row of a DataFrame: association list from column name to value. -/
abbrev Row := List (String × Val)

/-- Reading a cell: a column absent from the row reads as NaN, matching a
pandas row that has no value recorded for that column. -/
def getCell (r : Row) (c : String) : Val :=
  (r.lookup c).getD Val.vnan

/-- Writing a cell: replace the first binding of the column, or append the
binding when the column is absent (like column assignment in pandas). -/
def setCell (r : Row) (c : String) (v : Val) : Row :=
  match r with
  | [] => [(c, v)]
  | p :: t => if p.1 = c then (c, v) :: t else p :: setCell t c v

/-- Embedding of `pd.Series.fillna('')` on a single cell. -/
def fillnaEmpty (v : Val) : Val :=
  match v with
  | .vnan => .vstr ""
  | _ => v

/-- Embedding of `astype(str)` / `str(...)` on a single cell (note that a raw
NaN stringifies to "nan", which is why the code always fills first). -/
def astypeStr (v : Val) : String :=
  match v with
  | .vstr s => s
  | .vint n => toString n
  | .vfloat lit => lit
  | .vbool b => if b then "True" else "False"
  | .vnan => "nan"

/-- Characters stripped by Python's `str.strip()`. -/
def pySpace (c : Char) : Bool :=
  c = ' ' || c = '\t' || c = '\n' || c = '\r' || c = '\x0b' || c = '\x0c'

/-- Embedding of `re.sub(r'\n{3,}', '\n\n', text)`: every run of three or
more newlines collapses to exactly two. -/
def collapseNewlines (l : List Char) : List Char :=
  l.foldr (fun c acc =>
    match c, acc with
    | '\n', '\n' :: '\n' :: _ => acc
    | _, _ => c :: acc) []

/-- Embedding of `re.sub(r' {2,}', ' ', text)`: every run of two or more
spaces collapses to one. -/
def collapseSpaces (l : List Char) : List Char :=
  l.foldr (fun c acc =>
    match c, acc with
    | ' ', ' ' :: _ => acc
    | _, _ => c :: acc) []

/-- Embedding of Python `text.strip()`. -/
def pyStrip (l : List Char) : List Char :=
  ((l.dropWhile pySpace).reverse.dropWhile pySpace).reverse

/-- Embedding of `utils.clean_text`: non-string input yields the empty
string; a string is newline-collapsed, space-collapsed, then stripped. -/
def clean_text (v : Val) : String :=
  match v with
  | .vstr s => ⟨pyStrip (collapseSpaces (collapseNewlines s.data))⟩
  | _ => ""

/-- DataFrame: header plus rows. -/
structure Table where
  cols : List String
  rows : List Row
deriving DecidableEq, Repr

/-- State of a `LeadManager` together with its `LocalStorage`: the in-memory
leads table and the persisted table (`none` when no file exists yet). -/
structure LMState where
  leads : Table
  stored : Option Table
deriving DecidableEq, Repr

/-- Required import columns, in the order `sync_leads` checks them. -/
def requiredColumns : List String :=
  ["summary", "lowHangingFruit", "originalPost", "solution", "date", "url", "subreddit"]

/-- Free-text columns that `sync_leads` passes through `clean_text`. -/
def textColumns : List String :=
  ["summary", "lowHangingFruit", "originalPost", "solution"]

/-- Fixed status display order used throughout the code. -/
def statusOrder : List String :=
  ["New", "In Progress", "Contacted", "Closed"]

/-- Per-row effect of the column-wise `new_leads[col].apply(clean_text)`
loop over the four text columns. -/
def cleanTextRow (r : Row) : Row :=
  textColumns.foldl (fun r2 c => setCell r2 c (.vstr (clean_text (getCell r2 c)))) r

/-- Adding a constant column, as in `new_leads['status'] = 'New'`. -/
def addColumn (t : Table) (c : String) (v : Val) : Table :=
  { cols := t.cols ++ [c], rows := t.rows.map (fun r => setCell r c v) }

/-- Lookup in the dict built from `pd.Series(values, index=urls).to_dict()`:
with duplicate urls the later row wins, hence the search from the end. -/
def lookupUrlVal (rows : List Row) (valueCol : String) (u : Val) : Option Val :=
  (rows.reverse.find? (fun r => getCell r "url" == u)).map (fun r => getCell r valueCol)

/-- Per-row effect of the two `.loc[... .isin(...)] = ... .map(...)`
assignments in `sync_leads`: a row whose url occurs in the existing table
takes the existing status verbatim and the existing notes filled and
stringified (the notes dict is built from `fillna('').astype(str)`). -/
def mergeRow (existing : List Row) (r : Row) : Row :=
  let r1 :=
    match lookupUrlVal existing "status" (getCell r "url") with
    | some v => setCell r "status" v
    | none => r
  match lookupUrlVal existing "notes" (getCell r "url") with
  | some v => setCell r1 "notes" (.vstr (astypeStr (fillnaEmpty v)))
  | none => r1

/-- Stages of the `sync_leads` body after validation: clean the four text
columns, default a missing status column to 'New', default a missing notes
column to '', then `fillna('').astype(str)` the notes column. -/
def syncPrepared (newLeads : Table) : Table :=
  let t1 : Table := { newLeads with rows := newLeads.rows.map cleanTextRow }
  let t2 := if t1.cols.contains "status" then t1 else addColumn t1 "status" (.vstr "New")
  let t3 := if t2.cols.contains "notes" then t2 else addColumn t2 "notes" (.vstr "")
  { t3 with rows := t3.rows.map (fun r =>
      setCell r "notes" (.vstr (astypeStr (fillnaEmpty (getCell r "notes"))))) }

/-- Merge stage of `sync_leads`: when the existing table is non-empty, carry
its status/notes onto every imported row with a matching url. -/
def syncMerged (newLeads : Table) (st : LMState) : Table :=
  let t4 := syncPrepared newLeads
  if st.leads.rows.isEmpty then t4
  else { t4 with rows := t4.rows.map (mergeRow st.leads.rows) }

/-- Embedding of `LeadManager.sync_leads`.  The outcome of `pd.read_csv` is
passed in as `read` (`Except.error` when reading raised).  Every exception
the Python body can raise is caught by the surrounding `try`, so the
embedding is a total function returning the `(success, error)` pair plus the
successor state. -/
def sync_leads (read : Except String Table) (st : LMState) :
    (Bool × Option String) × LMState :=
  match read with
  | .error e => ((false, some ("Error processing CSV file: " ++ e)), st)
  | .ok newLeads =>
    let missing := requiredColumns.filter (fun c => !(newLeads.cols.contains c))
    if missing.isEmpty then
      ((true, none),
       { leads := syncMerged newLeads st, stored := some (syncMerged newLeads st) })
    else
      ((false, some ("Missing required columns: " ++ String.intercalate ", " missing)), st)

/-- Count of records whose status cell equals the given status string, as
produced by `value_counts().get(status, 0)`. -/
def countStatus (df : Table) (s : String) : Nat :=
  df.rows.countP (fun r => getCell r "status" == Val.vstr s)

/-- Count of records whose status is one of the given status strings. -/
def countStatusIn (df : Table) (ss : List String) : Nat :=
  df.rows.countP (fun r => decide (getCell r "status" ∈ ss.map Val.vstr))

/-- Entry of the funnel report built by `get_funnel_data`. -/
structure FunnelEntry where
  status : String
  count : Int
  percentage : ℚ
deriving DecidableEq, Repr

/-- Loop body of `get_funnel_data`: walk the status order carrying the
running `cumulative_count`, appending one entry per status. -/
def funnelLoop (df : Table) (n : Int) : List String → Int → List FunnelEntry
  | [], _ => []
  | s :: rest, cum =>
    { status := s, count := cum,
      percentage := if 0 < n then (cum : ℚ) / (n : ℚ) * 100 else 0 } ::
      funnelLoop df n rest (cum - (countStatus df s : Int))

/-- Embedding of `AnalyticsManager.get_funnel_data`. -/
def get_funnel_data (df : Table) : List FunnelEntry :=
  if df.rows.isEmpty then []
  else funnelLoop df (df.rows.length : Int) statusOrder (df.rows.length : Int)

/-- Result shape of `get_status_distribution`. -/
structure Distribution where
  labels : List String
  values : List Nat
deriving DecidableEq, Repr

/-- Embedding of `AnalyticsManager.get_status_distribution`:
`value_counts().reindex(status_order, fill_value=0)` yields the four fixed
labels with per-status counts, and the empty table yields empty lists. -/
def get_status_distribution (df : Table) : Distribution :=
  if df.rows.isEmpty then { labels := [], values := [] }
  else { labels := statusOrder, values := statusOrder.map (fun s => countStatus df s) }

/-- Result shape of `get_response_stats`. -/
structure ResponseStats where
  leads_with_notes : Nat
  notes_percentage : ℚ
  avg_notes_length : ℚ
deriving DecidableEq, Repr

/-- Notes cell of a row after `fillna('').astype(str)`. -/
def notesString (r : Row) : String :=
  astypeStr (fillnaEmpty (getCell r "notes"))

/-- Embedding of `AnalyticsManager.get_response_stats`.  Note that
`avg_notes_length` is `df['notes'].str.len().mean()`, the mean over ALL
rows of the table, guarded by `leads_with_notes > 0`. -/
def get_response_stats (df : Table) : ResponseStats :=
  if df.rows.isEmpty then { leads_with_notes := 0, notes_percentage := 0, avg_notes_length := 0 }
  else
    let notes := df.rows.map notesString
    let leadsWithNotes := notes.countP (fun s => decide (0 < s.length))
    { leads_with_notes := leadsWithNotes,
      notes_percentage := (leadsWithNotes : ℚ) / (df.rows.length : ℚ) * 100,
      avg_notes_length :=
        if 0 < leadsWithNotes then ((notes.map String.length).sum : ℚ) / (notes.length : ℚ) else 0 }

/-- Modelled from the spec text for `responseStats()`: mean notes length
over only the records with non-empty notes (0 if none).  Used to compare
the code's behaviour against the claimed one. -/
def specMeanNonEmptyNotesLength (df : Table) : ℚ :=
  let nonEmpty := (df.rows.map notesString).filter (fun s => decide (0 < s.length))
  if nonEmpty.isEmpty then 0
  else ((nonEmpty.map String.length).sum : ℚ) / (nonEmpty.length : ℚ)

/-- Embedding of `LeadManager.update_lead_status`: write the status cell at
the row labelled `idx` and persist the whole table.  No validation of the
status string occurs anywhere in the method. -/
def update_lead_status (st : LMState) (idx : Nat) (status : String) : LMState :=
  let df : Table :=
    { st.leads with
      rows := st.leads.rows.set idx
        (setCell (st.leads.rows.getD idx []) "status" (.vstr status)) }
  { leads := df, stored := some df }

/-- Body of the `for idx in indices` loop of `bulk_append_notes`: coerce the
current notes cell (`'' if pd.isna(...) else str(...)`) and append the
pre-formatted line. -/
def bulkAppendStep (line : String) (rows : List Row) (idx : Nat) : List Row :=
  let cur := getCell (rows.getD idx []) "notes"
  let curS := if cur = Val.vnan then "" else astypeStr cur
  rows.set idx (setCell (rows.getD idx []) "notes" (.vstr (curS ++ line)))

/-- Embedding of `LeadManager.bulk_append_notes`.  The wall clock is passed
as `clock : Nat -> String` giving the formatted `datetime.now()` reading at
the n-th query; the method queries the clock exactly once, before the loop,
so only `clock 0` is ever read. -/
def bulk_append_notes (clock : Nat → String) (st : LMState) (indices : List Nat)
    (notes : String) : LMState :=
  let timestamp := clock 0
  let line := "\n[" ++ timestamp ++ "] " ++ notes
  let rows2 := indices.foldl (bulkAppendStep line) st.leads.rows
  let df : Table := { st.leads with rows := rows2 }
  { leads := df, stored := some df }

/-- Decimal value of a digit character. -/
def digitVal (c : Char) : Nat := c.toNat - 48

/-- Directive `%Y` of CPython strptime: exactly four digits. -/
def parseYear4 : List Char → Option (Nat × Nat)
  | c1 :: c2 :: c3 :: c4 :: _ =>
    if c1.isDigit && c2.isDigit && c3.isDigit && c4.isDigit then
      some (((digitVal c1 * 10 + digitVal c2) * 10 + digitVal c3) * 10 + digitVal c4, 4)
    else none
  | _ => none

/-- Directive `%m` of CPython strptime, the regex `1[0-2]|0[1-9]|[1-9]`;
returns the value and the number of characters consumed. -/
def parseMonth : List Char → Option (Nat × Nat)
  | c1 :: c2 :: _ =>
    if c1 = '1' && ('0' ≤ c2 && c2 ≤ '2') then some (10 + digitVal c2, 2)
    else if c1 = '0' && ('1' ≤ c2 && c2 ≤ '9') then some (digitVal c2, 2)
    else if '1' ≤ c1 && c1 ≤ '9' then some (digitVal c1, 1)
    else none
  | [c1] => if '1' ≤ c1 && c1 ≤ '9' then some (digitVal c1, 1) else none
  | [] => none

/-- Directive `%d`, the regex `3[01]|[12]\d|0[1-9]|[1-9]`. -/
def parseDay : List Char → Option (Nat × Nat)
  | c1 :: c2 :: _ =>
    if c1 = '3' && ('0' ≤ c2 && c2 ≤ '1') then some (30 + digitVal c2, 2)
    else if ('1' ≤ c1 && c1 ≤ '2') && c2.isDigit then some (digitVal c1 * 10 + digitVal c2, 2)
    else if c1 = '0' && ('1' ≤ c2 && c2 ≤ '9') then some (digitVal c2, 2)
    else if '1' ≤ c1 && c1 ≤ '9' then some (digitVal c1, 1)
    else none
  | [c1] => if '1' ≤ c1 && c1 ≤ '9' then some (digitVal c1, 1) else none
  | [] => none

/-- Directive `%H`, the regex `2[0-3]|[0-1]\d|\d`. -/
def parseHour : List Char → Option (Nat × Nat)
  | c1 :: c2 :: _ =>
    if c1 = '2' && ('0' ≤ c2 && c2 ≤ '3') then some (20 + digitVal c2, 2)
    else if ('0' ≤ c1 && c1 ≤ '1') && c2.isDigit then some (digitVal c1 * 10 + digitVal c2, 2)
    else if c1.isDigit then some (digitVal c1, 1)
    else none
  | [c1] => if c1.isDigit then some (digitVal c1, 1) else none
  | [] => none

/-- Directive `%M`, the regex `[0-5]\d|\d`. -/
def parseMinute : List Char → Option (Nat × Nat)
  | c1 :: c2 :: _ =>
    if ('0' ≤ c1 && c1 ≤ '5') && c2.isDigit then some (digitVal c1 * 10 + digitVal c2, 2)
    else if c1.isDigit then some (digitVal c1, 1)
    else none
  | [c1] => if c1.isDigit then some (digitVal c1, 1) else none
  | [] => none

/-- Directive `%S`, the regex `6[0-1]|[0-5]\d|\d`. -/
def parseSecond : List Char → Option (Nat × Nat)
  | c1 :: c2 :: _ =>
    if c1 = '6' && ('0' ≤ c2 && c2 ≤ '1') then some (60 + digitVal c2, 2)
    else if ('0' ≤ c1 && c1 ≤ '5') && c2.isDigit then some (digitVal c1 * 10 + digitVal c2, 2)
    else if c1.isDigit then some (digitVal c1, 1)
    else none
  | [c1] => if c1.isDigit then some (digitVal c1, 1) else none
  | [] => none

/-- Literal character of the format string. -/
def expectChar (c : Char) : List Char → Option Unit
  | c1 :: _ => if c1 = c then some () else none
  | [] => none

/-- Month length used by the `datetime` constructor's day validation. -/
def daysInMonth (y m : Nat) : Nat :=
  if m = 2 then
    if y % 4 = 0 ∧ (y % 100 ≠ 0 ∨ y % 400 = 0) then 29 else 28
  else if m = 4 ∨ m = 6 ∨ m = 9 ∨ m = 11 then 30
  else 31

/-- Embedding of `datetime.strptime(date_str, "%Y-%m-%dT%H:%M:%S.000-04:00")`.
The trailing `.000-04:00` of the format string holds no directives, so it is
matched literally; the whole input must be consumed; the `datetime`
constructor then validates year, day-of-month and seconds. -/
def strptimeFixedOffset (s : String) : Option (Nat × Nat × Nat) := do
  let l0 := s.data
  let (y, k1) ← parseYear4 l0
  let l1 := l0.drop k1
  let _ ← expectChar '-' l1
  let l2 := l1.drop 1
  let (m, k2) ← parseMonth l2
  let l3 := l2.drop k2
  let _ ← expectChar '-' l3
  let l4 := l3.drop 1
  let (d, k3) ← parseDay l4
  let l5 := l4.drop k3
  let _ ← expectChar 'T' l5
  let l6 := l5.drop 1
  let (hh, k4) ← parseHour l6
  let l7 := l6.drop k4
  let _ ← expectChar ':' l7
  let l8 := l7.drop 1
  let (mi, k5) ← parseMinute l8
  let l9 := l8.drop k5
  let _ ← expectChar ':' l9
  let l10 := l9.drop 1
  let (ss, k6) ← parseSecond l10
  let l11 := l10.drop k6
  if l11 = ".000-04:00".data then
    if 1 ≤ y ∧ d ≤ daysInMonth y m ∧ hh ≤ 23 ∧ mi ≤ 59 ∧ ss ≤ 59 then
      some (y, m, d)
    else none
  else none

/-- English month name, as `strftime("%B")` produces. -/
def monthName : Nat → String
  | 1 => "January"
  | 2 => "February"
  | 3 => "March"
  | 4 => "April"
  | 5 => "May"
  | 6 => "June"
  | 7 => "July"
  | 8 => "August"
  | 9 => "September"
  | 10 => "October"
  | 11 => "November"
  | 12 => "December"
  | _ => ""

/-- Zero-padded two-digit rendering, as `strftime("%d")` produces. -/
def pad2 (n : Nat) : String :=
  if n < 10 then "0" ++ toString n else toString n

/-- Embedding of `utils.format_date`: on successful parse render
`strftime("%B %d, %Y")`, on any failure return the input string. -/
def format_date (s : String) : String :=
  match strptimeFixedOffset s with
  | some (y, m, d) => monthName m ++ " " ++ pad2 d ++ ", " ++ toString y
  | none => s

/-- Empty leads table that `load_leads` constructs when no file exists. -/
def emptyLeadsTable : Table :=
  { cols := ["summary", "lowHangingFruit", "originalPost", "solution",
             "date", "url", "subreddit", "status", "notes"],
    rows := [] }

/-- Fresh manager state: empty table, nothing persisted yet. -/
def freshState : LMState :=
  { leads := emptyLeadsTable, stored := none }

/-- Import table missing all required columns but `summary`. -/
def importMissingCols : Table :=
  { cols := ["summary"], rows := [] }

/-- Existing lead row with triage state recorded. -/
def leadRow1 : Row :=
  [("summary", .vstr "old summary"), ("lowHangingFruit", .vstr "old fruit"),
   ("originalPost", .vstr "old post"), ("solution", .vstr "old solution"),
   ("date", .vstr "2024-01-02T03:04:05.000-04:00"), ("url", .vstr "https://a"),
   ("subreddit", .vstr "r1"), ("status", .vstr "Contacted"), ("notes", .vstr "called")]

/-- Manager state holding one triaged lead. -/
def existingState : LMState :=
  { leads :=
      { cols := ["summary", "lowHangingFruit", "originalPost", "solution",
                 "date", "url", "subreddit", "status", "notes"],
        rows := [leadRow1] },
    stored := none }

/-- Imported row whose url matches the existing lead. -/
def importRow1 : Row :=
  [("summary", .vstr "new summary"), ("lowHangingFruit", .vstr "new fruit"),
   ("originalPost", .vstr "new post"), ("solution", .vstr "new solution"),
   ("date", .vstr "2024-02-02T03:04:05.000-04:00"), ("url", .vstr "https://a"),
   ("subreddit", .vstr "r1")]

/-- Imported row with a url never seen before. -/
def importRow2 : Row :=
  [("summary", .vstr "fresh summary"), ("lowHangingFruit", .vstr "fresh fruit"),
   ("originalPost", .vstr "fresh post"), ("solution", .vstr "fresh solution"),
   ("date", .vstr "2024-03-02T03:04:05.000-04:00"), ("url", .vstr "https://b"),
   ("subreddit", .vstr "r2")]

/-- Import table carrying only the seven required columns. -/
def importTable1 : Table :=
  { cols := ["summary", "lowHangingFruit", "originalPost", "solution",
             "date", "url", "subreddit"],
    rows := [importRow1, importRow2] }

/-- Minimal row carrying only a status. -/
def statusRow (s : String) : Row := [("status", .vstr s)]

/-- Table with status counts New:3, In Progress:2, Contacted:1, Closed:0,
the example from the specification. -/
def funnelTable : Table :=
  { cols := ["status"],
    rows := [statusRow "New", statusRow "New", statusRow "New",
             statusRow "In Progress", statusRow "In Progress", statusRow "Contacted"] }

/-- One-row table whose status is outside the four enumerated values. -/
def staleTable : Table :=
  { cols := ["status"], rows := [statusRow "Stale"] }

/-- Minimal row carrying only notes. -/
def notesRow (s : String) : Row := [("notes", .vstr s)]

/-- Two-row table: one row with notes "ab", one with empty notes. -/
def notesTable : Table :=
  { cols := ["notes"], rows := [notesRow "ab", notesRow ""] }

/-- Manager state with two leads used by the bulk-append example. -/
def bulkState : LMState :=
  { leads :=
      { cols := ["url", "status", "notes"],
        rows := [[("url", .vstr "https://a"), ("status", .vstr "New"), ("notes", .vstr "earlier")],
                 [("url", .vstr "https://b"), ("status", .vstr "New"), ("notes", Val.vnan)]] },
    stored := none }

/-- Wall clock that ticks over to the next minute after the first query. -/
def clockTicking (n : Nat) : String :=
  if n = 0 then "2024-01-01 10:59" else "2024-01-01 11:00"

/-- Wall clock frozen at the first query's reading. -/
def clockFrozen (_ : Nat) : String := "2024-01-01 10:59"

/-- Per-row effect of the preparation stages of `sync_leads` (text cleaning,
status defaulting, notes defaulting, notes stringification), parameterised
by whether the import carried status and notes columns. -/
def prepRow (hasStatus hasNotes : Bool) (r : Row) : Row :=
  let r1 := cleanTextRow r
  let r2 :=
    match hasStatus with
    | true => r1
    | false => setCell r1 "status" (.vstr "New")
  let r3 :=
    match hasNotes with
    | true => r2
    | false => setCell r2 "notes" (.vstr "")
  setCell r3 "notes" (.vstr (astypeStr (fillnaEmpty (getCell r3 "notes"))))

theorem lookup_setCell_self (r : Row) (c : String) (v : Val) :
    (setCell r c v).lookup c = some v := by
  induction r with
  | nil => simp [setCell, List.lookup]
  | cons p t ih =>
    obtain ⟨k, b⟩ := p
    by_cases h : k = c
    · simp [setCell, h, List.lookup]
    · have hb : (c == k) = false := by
        simp only [beq_eq_false_iff_ne]
        exact fun h2 => h h2.symm
      simp [setCell, h, List.lookup, hb, ih]

theorem lookup_setCell_ne (r : Row) (c c' : String) (v : Val) (h : c' ≠ c) :
    (setCell r c v).lookup c' = r.lookup c' := by
  have hb : (c' == c) = false := by
    simp only [beq_eq_false_iff_ne]
    exact h
  induction r with
  | nil => simp [setCell, List.lookup, hb]
  | cons p t ih =>
    obtain ⟨k, b⟩ := p
    by_cases hp : k = c
    · subst hp
      simp [setCell, List.lookup, hb]
    · cases hck : c' == k with
      | true => simp [setCell, hp, List.lookup, hck]
      | false => simp [setCell, hp, List.lookup, hck, ih]

theorem getCell_setCell_self (r : Row) (c : String) (v : Val) :
    getCell (setCell r c v) c = v := by
  simp [getCell, lookup_setCell_self]

theorem getCell_setCell_ne (r : Row) (c c' : String) (v : Val) (h : c' ≠ c) :
    getCell (setCell r c v) c' = getCell r c' := by
  simp [getCell, lookup_setCell_ne r c c' v h]

/-- C2: syncing an import table that lacks required columns returns failure,
the error message names exactly the absent required columns, and both the
in-memory leads table and the persisted table are unchanged (no save). -/
theorem sync_leads_missing_columns_aborts (I : Table) (st : LMState)
    (h : requiredColumns.filter (fun c => !(I.cols.contains c)) ≠ []) :
    sync_leads (.ok I) st =
      ((false, some ("Missing required columns: " ++ String.intercalate ", "
        (requiredColumns.filter (fun c => !(I.cols.contains c))))), st) ∧
    ∀ c, (c ∈ requiredColumns.filter (fun c2 => !(I.cols.contains c2)) ↔
      (c ∈ requiredColumns ∧ c ∉ I.cols)) := by
  have hne : (requiredColumns.filter (fun c => !(I.cols.contains c))).isEmpty = false := by
    rw [Bool.eq_false_iff]
    intro hemp
    exact h (List.isEmpty_iff.mp hemp)
  constructor
  · simp only [sync_leads]
    rw [if_neg (by rw [hne]; exact Bool.false_ne_true)]
  · intro c
    simp [List.mem_filter, List.contains, List.elem_iff]

/-- C2 witness: a concrete import with only a `summary` column aborts with
the six other required column names in the message and leaves the fresh
state untouched. -/
theorem sync_leads_missing_columns_aborts_witness :
    sync_leads (.ok importMissingCols) freshState =
      ((false, some "Missing required columns: lowHangingFruit, originalPost, solution, date, url, subreddit"),
       freshState) :=
  (sync_leads_missing_columns_aborts importMissingCols freshState (by decide)).1

/-- C10: `sync_leads` is a total function of its inputs (every exception in
the Python body is caught): it returns `(true, none)` with the merged table
persisted, or `(false, some msg)` with the entire prior state, in-memory
table included, unchanged. -/
theorem sync_leads_no_raise (read : Except String Table) (st : LMState) :
    (∃ st2, sync_leads read st = ((true, none), st2) ∧ st2.stored = some st2.leads) ∨
    ∃ m, sync_leads read st = ((false, some m), st) := by
  match read with
  | .error e => exact Or.inr ⟨_, rfl⟩
  | .ok I =>
    cases hemp : (requiredColumns.filter (fun c => !(I.cols.contains c))).isEmpty with
    | true =>
      refine Or.inl ⟨{ leads := syncMerged I st, stored := some (syncMerged I st) }, ?_, rfl⟩
      simp only [sync_leads]
      rw [if_pos (by rw [hemp])]
    | false =>
      refine Or.inr ⟨"Missing required columns: " ++ String.intercalate ", "
        (requiredColumns.filter (fun c => !(I.cols.contains c))), ?_⟩
      simp only [sync_leads]
      rw [if_neg (by rw [hemp]; exact Bool.false_ne_true)]

theorem countP_mem_cons {α β : Type} [DecidableEq β] (l : List α) (f : α → β)
    (x : β) (xs : List β) (hx : x ∉ xs) :
    l.countP (fun a => decide (f a ∈ x :: xs)) =
      l.countP (fun a => f a == x) + l.countP (fun a => decide (f a ∈ xs)) := by
  induction l with
  | nil => simp
  | cons a t ih =>
    simp only [List.countP_cons, ih]
    by_cases hax : f a = x
    · simp [hax, hx]
      omega
    · by_cases hmem : f a ∈ xs
      · simp [hax, hmem]
        omega
      · simp [hax, hmem]

/-- C4 counterexample: the claim fails on the code in two ways.  On the
empty table `get_status_distribution` returns empty label and value lists,
so the four labels are not always present; and on a table whose only
record's status is outside the four values the returned values sum to 0
while the table holds 1 record. -/
theorem get_status_distribution_claim_false :
    (get_status_distribution emptyLeadsTable).labels = [] ∧
    (get_status_distribution staleTable).values.sum = 0 ∧
    staleTable.rows.length = 1 := by
  decide

/-- C4 (amended): for every NON-EMPTY table `get_status_distribution`
returns the four labels in the fixed order, its values sum to the number of
records whose status is among the four enumerated values, and hence to the
total record count whenever every record's status is one of the four. -/
theorem get_status_distribution_amended (df : Table) (h : df.rows ≠ []) :
    (get_status_distribution df).labels = statusOrder ∧
    (get_status_distribution df).values.sum = countStatusIn df statusOrder ∧
    ((∀ r ∈ df.rows, getCell r "status" ∈ statusOrder.map Val.vstr) →
      (get_status_distribution df).values.sum = df.rows.length) := by
  have hne : df.rows.isEmpty = false := by
    rw [Bool.eq_false_iff]
    intro he
    exact h (List.isEmpty_iff.mp he)
  have hunfold : get_status_distribution df =
      { labels := statusOrder, values := statusOrder.map (fun s => countStatus df s) } := by
    simp only [get_status_distribution]
    rw [if_neg (by rw [hne]; exact Bool.false_ne_true)]
  have hsum : (statusOrder.map (fun s => countStatus df s)).sum = countStatusIn df statusOrder := by
    simp only [countStatusIn, statusOrder, List.map_cons, List.map_nil, List.sum_cons,
      List.sum_nil, countStatus]
    rw [countP_mem_cons df.rows (fun r => getCell r "status") _ _ (by decide)]
    rw [countP_mem_cons df.rows (fun r => getCell r "status") _ _ (by decide)]
    rw [countP_mem_cons df.rows (fun r => getCell r "status") _ _ (by decide)]
    rw [countP_mem_cons df.rows (fun r => getCell r "status") _ _ (by decide)]
    simp
  refine ⟨by rw [hunfold], by rw [hunfold]; exact hsum, fun hall => ?_⟩
  rw [hunfold]
  show (statusOrder.map (fun s => countStatus df s)).sum = df.rows.length
  rw [hsum]
  simp only [countStatusIn]
  apply List.countP_eq_length.mpr
  intro r hr
  simpa using hall r hr

/-- C4 amended witness: on the six-record example table the distribution
values sum to six. -/
theorem get_status_distribution_amended_witness :
    (get_status_distribution funnelTable).values.sum = funnelTable.rows.length :=
  (get_status_distribution_amended funnelTable (by decide)).2.2 (by decide)

/-- C5 counterexample: on a table holding notes "ab" and "", the code
returns mean notes length 1 (mean over all records), while the mean over
only the records with non-empty notes is 2, so the claim fails. -/
theorem get_response_stats_mean_mismatch :
    (get_response_stats notesTable).avg_notes_length = 1 ∧
    specMeanNonEmptyNotesLength notesTable = 2 := by
  have hab : "ab".length = 2 := rfl
  have hemp : "".length = 0 := rfl
  constructor
  · norm_num [get_response_stats, notesTable, notesRow, notesString, getCell,
      fillnaEmpty, astypeStr, List.countP_cons, List.lookup, hab, hemp]
  · norm_num [specMeanNonEmptyNotesLength, notesTable, notesRow, notesString, getCell,
      fillnaEmpty, astypeStr, List.lookup, List.filter_cons, List.filter_nil, hab, hemp]

/-- C5 (amended): `get_response_stats` returns the count of records with
non-empty notes and that count as a percentage of the total, but its
`avg_notes_length` is the mean notes length over ALL records of the table
(denominator = total record count), 0 when no record has non-empty notes. -/
theorem get_response_stats_amended (df : Table) (h : df.rows ≠ []) :
    (get_response_stats df).leads_with_notes
        = ((df.rows.map notesString).filter (fun s => decide (0 < s.length))).length ∧
    (get_response_stats df).notes_percentage
        = ((get_response_stats df).leads_with_notes : ℚ) / (df.rows.length : ℚ) * 100 ∧
    (get_response_stats df).avg_notes_length =
      (if 0 < (get_response_stats df).leads_with_notes
       then (((df.rows.map notesString).map String.length).sum : ℚ) / (df.rows.length : ℚ)
       else 0) := by
  have hne : df.rows.isEmpty = false := by
    rw [Bool.eq_false_iff]
    intro he
    exact h (List.isEmpty_iff.mp he)
  have hunfold : get_response_stats df =
      { leads_with_notes := (df.rows.map notesString).countP (fun s => decide (0 < s.length)),
        notes_percentage :=
          (((df.rows.map notesString).countP (fun s => decide (0 < s.length))) : ℚ)
            / (df.rows.length : ℚ) * 100,
        avg_notes_length :=
          if 0 < (df.rows.map notesString).countP (fun s => decide (0 < s.length))
          then (((df.rows.map notesString).map String.length).sum : ℚ)
            / ((df.rows.map notesString).length : ℚ)
          else 0 } := by
    simp only [get_response_stats]
    rw [if_neg (by rw [hne]; exact Bool.false_ne_true)]
  rw [hunfold]
  refine ⟨List.countP_eq_length_filter _ _, rfl, ?_⟩
  rw [List.length_map]

/-- C5 amended witness: on the example table the count of records with
non-empty notes is computed as claimed. -/
theorem get_response_stats_amended_witness :
    (get_response_stats notesTable).leads_with_notes
      = ((notesTable.rows.map notesString).filter (fun s => decide (0 < s.length))).length :=
  (get_response_stats_amended notesTable (by decide)).1

/-- C6 counterexample: updating with the status "Bogus", which is outside
the four enumerated values, neither fails nor is rejected: the record is
updated to "Bogus" and the table is persisted. -/
theorem update_lead_status_invalid_updates :
    getCell ((update_lead_status existingState 0 "Bogus").leads.rows.getD 0 []) "status"
        = Val.vstr "Bogus" ∧
    (update_lead_status existingState 0 "Bogus").stored
        = some (update_lead_status existingState 0 "Bogus").leads ∧
    "Bogus" ∉ statusOrder := by
  decide

/-- C6 (amended): `update_lead_status` performs no validation whatsoever:
for EVERY status string, valid or not, it writes the status cell of the
addressed row, leaves every other row and cell unchanged, and persists the
updated table. -/
theorem update_lead_status_amended (st : LMState) (idx : Nat) (status : String)
    (h : idx < st.leads.rows.length) :
    getCell ((update_lead_status st idx status).leads.rows.getD idx []) "status"
        = Val.vstr status ∧
    (∀ c, c ≠ "status" →
      getCell ((update_lead_status st idx status).leads.rows.getD idx []) c
        = getCell (st.leads.rows.getD idx []) c) ∧
    (∀ j, j ≠ idx →
      (update_lead_status st idx status).leads.rows.getD j []
        = st.leads.rows.getD j []) ∧
    (update_lead_status st idx status).stored
        = some (update_lead_status st idx status).leads := by
  have hrow : (update_lead_status st idx status).leads.rows.getD idx []
      = setCell (st.leads.rows.getD idx []) "status" (.vstr status) := by
    simp only [update_lead_status, List.getD_eq_getElem?_getD]
    rw [List.getElem?_set_self h]
    rfl
  refine ⟨?_, ?_, ?_, rfl⟩
  · rw [hrow, getCell_setCell_self]
  · intro c hc
    rw [hrow, getCell_setCell_ne _ _ _ _ hc]
  · intro j hj
    simp only [update_lead_status, List.getD_eq_getElem?_getD]
    rw [List.getElem?_set_ne (fun he => hj he.symm)]

/-- C6 amended witness: a concrete valid update writes the status cell. -/
theorem update_lead_status_amended_witness :
    getCell ((update_lead_status existingState 0 "Closed").leads.rows.getD 0 []) "status"
      = Val.vstr "Closed" :=
  (update_lead_status_amended existingState 0 "Closed" (by decide)).1

theorem countStatusIn_nil (df : Table) : countStatusIn df [] = 0 := by
  simp [countStatusIn]

theorem countStatusIn_cons (df : Table) (s : String) (rest : List String)
    (h : Val.vstr s ∉ rest.map Val.vstr) :
    countStatusIn df (s :: rest) = countStatus df s + countStatusIn df rest := by
  simp only [countStatusIn, List.map_cons, countStatus]
  exact countP_mem_cons df.rows (fun r => getCell r "status") _ _ h

/-- C3: on every non-empty table of n records, `get_funnel_data` returns the
four entries in the fixed order New, In Progress, Contacted, Closed; each
entry's count is n minus the number of records whose status is strictly
earlier in that order; each percentage is count / n * 100; the first count
is n and the counts are non-increasing along the order. -/
theorem get_funnel_data_spec (df : Table) (h : df.rows ≠ []) :
    (get_funnel_data df).map FunnelEntry.status = statusOrder ∧
    ((get_funnel_data df).getD 0 ⟨"", 0, 0⟩).count = (df.rows.length : Int) ∧
    ((get_funnel_data df).getD 1 ⟨"", 0, 0⟩).count
        = (df.rows.length : Int) - (countStatusIn df ["New"] : Int) ∧
    ((get_funnel_data df).getD 2 ⟨"", 0, 0⟩).count
        = (df.rows.length : Int) - (countStatusIn df ["New", "In Progress"] : Int) ∧
    ((get_funnel_data df).getD 3 ⟨"", 0, 0⟩).count
        = (df.rows.length : Int) - (countStatusIn df ["New", "In Progress", "Contacted"] : Int) ∧
    ((get_funnel_data df).getD 0 ⟨"", 0, 0⟩).percentage
        = (((get_funnel_data df).getD 0 ⟨"", 0, 0⟩).count : ℚ) / (df.rows.length : ℚ) * 100 ∧
    ((get_funnel_data df).getD 1 ⟨"", 0, 0⟩).percentage
        = (((get_funnel_data df).getD 1 ⟨"", 0, 0⟩).count : ℚ) / (df.rows.length : ℚ) * 100 ∧
    ((get_funnel_data df).getD 2 ⟨"", 0, 0⟩).percentage
        = (((get_funnel_data df).getD 2 ⟨"", 0, 0⟩).count : ℚ) / (df.rows.length : ℚ) * 100 ∧
    ((get_funnel_data df).getD 3 ⟨"", 0, 0⟩).percentage
        = (((get_funnel_data df).getD 3 ⟨"", 0, 0⟩).count : ℚ) / (df.rows.length : ℚ) * 100 ∧
    ((get_funnel_data df).getD 1 ⟨"", 0, 0⟩).count ≤ ((get_funnel_data df).getD 0 ⟨"", 0, 0⟩).count ∧
    ((get_funnel_data df).getD 2 ⟨"", 0, 0⟩).count ≤ ((get_funnel_data df).getD 1 ⟨"", 0, 0⟩).count ∧
    ((get_funnel_data df).getD 3 ⟨"", 0, 0⟩).count ≤ ((get_funnel_data df).getD 2 ⟨"", 0, 0⟩).count := by
  have hne : df.rows.isEmpty = false := by
    rw [Bool.eq_false_iff]
    intro he
    exact h (List.isEmpty_iff.mp he)
  have hn : (0 : Int) < (df.rows.length : Int) := by
    exact_mod_cast List.length_pos.mpr h
  have hfd : get_funnel_data df
      = funnelLoop df (df.rows.length : Int) statusOrder (df.rows.length : Int) := by
    simp only [get_funnel_data]
    rw [if_neg (by rw [hne]; exact Bool.false_ne_true)]
  rw [hfd]
  have e1 : countStatusIn df ["New"] = countStatus df "New" := by
    rw [countStatusIn_cons df _ _ (by decide), countStatusIn_nil]
    omega
  have e2 : countStatusIn df ["New", "In Progress"]
      = countStatus df "New" + countStatus df "In Progress" := by
    rw [countStatusIn_cons df _ _ (by decide), countStatusIn_cons df _ _ (by decide),
      countStatusIn_nil]
    omega
  have e3 : countStatusIn df ["New", "In Progress", "Contacted"]
      = countStatus df "New" + countStatus df "In Progress" + countStatus df "Contacted" := by
    rw [countStatusIn_cons df _ _ (by decide), countStatusIn_cons df _ _ (by decide),
      countStatusIn_cons df _ _ (by decide), countStatusIn_nil]
    omega
  refine ⟨?_, ?_, ?_, ?_, ?_, ?_, ?_, ?_, ?_, ?_, ?_, ?_⟩ <;>
    simp only [statusOrder, funnelLoop, List.map_cons, List.map_nil, List.getD_cons_zero,
      List.getD_cons_succ, if_pos hn] <;>
    first
      | rfl
      | omega

/-- C3 witness: on the six-record example table the second funnel entry's
count is 6 minus the number of New records. -/
theorem get_funnel_data_spec_witness :
    ((get_funnel_data funnelTable).getD 1 ⟨"", 0, 0⟩).count
      = (funnelTable.rows.length : Int) - (countStatusIn funnelTable ["New"] : Int) :=
  (get_funnel_data_spec funnelTable (by decide)).2.2.1

theorem strptime_suffix (s : String) (out : Nat × Nat × Nat)
    (h : strptimeFixedOffset s = some out) :
    ".000-04:00".data <:+ s.data := by
  simp only [strptimeFixedOffset, bind, Option.bind_eq_some] at h
  obtain ⟨⟨y, k1⟩, hy, h⟩ := h
  obtain ⟨u1, hu1, h⟩ := h
  obtain ⟨⟨m, k2⟩, hm, h⟩ := h
  obtain ⟨u2, hu2, h⟩ := h
  obtain ⟨⟨d, k3⟩, hd, h⟩ := h
  obtain ⟨u3, hu3, h⟩ := h
  obtain ⟨⟨hh, k4⟩, hhh, h⟩ := h
  obtain ⟨u4, hu4, h⟩ := h
  obtain ⟨⟨mi, k5⟩, hmi, h⟩ := h
  obtain ⟨u5, hu5, h⟩ := h
  obtain ⟨⟨ss, k6⟩, hss, h⟩ := h
  split at h
  · rename_i heq
    rw [show (".000-04:00".data : List Char)
        = ['.', '0', '0', '0', '-', '0', '4', ':', '0', '0'] from rfl]
    rw [← heq]
    simp only [List.drop_drop]
    exact List.drop_suffix _ _
  · exact absurd h (by simp)

/-- C8 counterexample: `format_date` does not accept arbitrary timezone
offsets.  The same instant written with offset +00:00 fails to parse and is
returned raw, while the literal -04:00 offset is parsed and formatted. -/
theorem format_date_other_offset_unparsed :
    format_date "2024-01-02T03:04:05.000+00:00" = "2024-01-02T03:04:05.000+00:00" ∧
    format_date "2024-01-02T03:04:05.000-04:00" = "January 02, 2024" := by
  constructor
  · rfl
  · rfl

/-- C8 (amended): the format string ends in the LITERAL text `.000-04:00`,
so only inputs carrying exactly that suffix can parse: every string not
ending in `.000-04:00` (in particular one with any other timezone offset)
is returned unchanged rather than raising, and a well-formed date with the
literal -04:00 offset is parsed and rendered as `%B %d, %Y`. -/
theorem format_date_amended :
    (∀ s : String, ¬ (".000-04:00".data <:+ s.data) → format_date s = s) ∧
    format_date "2024-01-02T03:04:05.000-04:00" = "January 02, 2024" := by
  constructor
  · intro s hs
    unfold format_date
    cases hm : strptimeFixedOffset s with
    | none => rfl
    | some out => exact absurd (strptime_suffix s out hm) hs
  · rfl

/-- C8 amended witness: a date string with offset +05:00 lacks the literal
suffix and is returned unchanged. -/
theorem format_date_amended_witness :
    format_date "2024-01-02T03:04:05.000+05:00" = "2024-01-02T03:04:05.000+05:00" :=
  format_date_amended.1 "2024-01-02T03:04:05.000+05:00" (by decide)

theorem bulkAppendStep_length (line : String) (rows : List Row) (idx : Nat) :
    (bulkAppendStep line rows idx).length = rows.length := by
  simp [bulkAppendStep, List.length_set]

theorem foldl_bulkAppendStep_length (line : String) (idxs : List Nat) (rows : List Row) :
    (idxs.foldl (bulkAppendStep line) rows).length = rows.length := by
  induction idxs generalizing rows with
  | nil => rfl
  | cons j rest ih =>
    simp only [List.foldl_cons]
    rw [ih, bulkAppendStep_length]

theorem foldl_bulkAppendStep_not_mem (line : String) (idxs : List Nat) (rows : List Row)
    (i : Nat) (hi : i ∉ idxs) :
    (idxs.foldl (bulkAppendStep line) rows).getD i [] = rows.getD i [] := by
  induction idxs generalizing rows with
  | nil => rfl
  | cons j rest ih =>
    simp only [List.foldl_cons]
    have hij : i ≠ j := fun he => hi (he ▸ List.mem_cons_self _ _)
    rw [ih _ (fun hmem => hi (List.mem_cons_of_mem _ hmem))]
    simp only [bulkAppendStep, List.getD_eq_getElem?_getD]
    rw [List.getElem?_set_ne (fun he => hij he.symm)]

theorem foldl_bulkAppendStep_mem (line : String) (idxs : List Nat) (rows : List Row)
    (hnd : idxs.Nodup) (i : Nat) (hi : i ∈ idxs) (hlen : i < rows.length) :
    getCell ((idxs.foldl (bulkAppendStep line) rows).getD i []) "notes"
      = .vstr ((if getCell (rows.getD i []) "notes" = Val.vnan then ""
                else astypeStr (getCell (rows.getD i []) "notes")) ++ line) := by
  induction idxs generalizing rows with
  | nil => exact absurd hi (List.not_mem_nil i)
  | cons j rest ih =>
    simp only [List.foldl_cons]
    obtain ⟨hj, hrestnd⟩ := List.nodup_cons.mp hnd
    by_cases hij : i = j
    · subst hij
      rw [foldl_bulkAppendStep_not_mem line rest _ i hj]
      simp only [bulkAppendStep, List.getD_eq_getElem?_getD]
      rw [List.getElem?_set_self hlen]
      simp only [Option.getD_some]
      rw [getCell_setCell_self]
    · have hirest : i ∈ rest := by
        cases List.mem_cons.mp hi with
        | inl he => exact absurd he hij
        | inr hm => exact hm
      have hsame : (bulkAppendStep line rows j).getD i [] = rows.getD i [] := by
        simp only [bulkAppendStep, List.getD_eq_getElem?_getD]
        rw [List.getElem?_set_ne (fun he => hij he.symm)]
      have hlen2 : i < (bulkAppendStep line rows j).length := by
        rw [bulkAppendStep_length]
        exact hlen
      rw [ih _ hrestnd hirest hlen2, hsame]

/-- C9: `bulk_append_notes` reads the wall clock exactly once, at the start
of the call, so (a) the result depends only on the clock's first reading,
and (b) for a duplicate-free batch every addressed row's notes gain the
SAME appended line, built from the first reading, character for character
identical across the batch even when later readings differ. -/
theorem bulk_append_notes_single_timestamp (clock clock2 : Nat → String) (st : LMState)
    (indices : List Nat) (notes : String) (hclock : clock 0 = clock2 0) :
    bulk_append_notes clock st indices notes = bulk_append_notes clock2 st indices notes ∧
    (indices.Nodup → ∀ i ∈ indices, i < st.leads.rows.length →
      getCell ((bulk_append_notes clock st indices notes).leads.rows.getD i []) "notes"
        = .vstr ((if getCell (st.leads.rows.getD i []) "notes" = Val.vnan then ""
                  else astypeStr (getCell (st.leads.rows.getD i []) "notes"))
                 ++ ("\n[" ++ clock 0 ++ "] " ++ notes))) := by
  constructor
  · simp only [bulk_append_notes, hclock]
  · intro hnd i hi hlen
    simp only [bulk_append_notes]
    have := foldl_bulkAppendStep_mem ("\n[" ++ clock 0 ++ "] " ++ notes)
      indices st.leads.rows hnd i hi hlen
    simpa using this

/-- C9 witness: on a two-row batch and a clock that ticks to the next
minute after its first reading, row 0 gains the line stamped with the
FIRST reading. -/
theorem bulk_append_notes_single_timestamp_witness :
    getCell ((bulk_append_notes clockTicking bulkState [0, 1] "called").leads.rows.getD 0 []) "notes"
      = .vstr ((if getCell (bulkState.leads.rows.getD 0 []) "notes" = Val.vnan then ""
                else astypeStr (getCell (bulkState.leads.rows.getD 0 []) "notes"))
               ++ ("\n[" ++ clockTicking 0 ++ "] " ++ "called")) :=
  (bulk_append_notes_single_timestamp clockTicking clockFrozen bulkState [0, 1] "called"
    rfl).2 (by decide) 0 (by decide) (by decide)

theorem contains_iff_mem (l : List String) (a : String) :
    l.contains a = true ↔ a ∈ l := by
  simp [List.contains, List.elem_eq_mem]

theorem contains_eq_decide (l : List String) (a : String) :
    l.contains a = decide (a ∈ l) := by
  simp [List.contains, List.elem_eq_mem]

theorem contains_append_ne (l : List String) (a b : String) (h : b ≠ a) :
    (l ++ [a]).contains b = l.contains b := by
  rw [contains_eq_decide, contains_eq_decide]
  rw [decide_eq_decide]
  simp [List.mem_append, h]

theorem getCell_cleanTextRow_other (r : Row) (c : String) (h1 : c ≠ "summary")
    (h2 : c ≠ "lowHangingFruit") (h3 : c ≠ "originalPost") (h4 : c ≠ "solution") :
    getCell (cleanTextRow r) c = getCell r c := by
  simp only [cleanTextRow, textColumns, List.foldl_cons, List.foldl_nil]
  rw [getCell_setCell_ne _ _ _ _ h4, getCell_setCell_ne _ _ _ _ h3,
    getCell_setCell_ne _ _ _ _ h2, getCell_setCell_ne _ _ _ _ h1]

theorem getCell_cleanTextRow_summary (r : Row) :
    getCell (cleanTextRow r) "summary" = .vstr (clean_text (getCell r "summary")) := by
  simp only [cleanTextRow, textColumns, List.foldl_cons, List.foldl_nil]
  rw [getCell_setCell_ne _ _ _ _ (by decide), getCell_setCell_ne _ _ _ _ (by decide),
    getCell_setCell_ne _ _ _ _ (by decide), getCell_setCell_self]

theorem getCell_cleanTextRow_lhf (r : Row) :
    getCell (cleanTextRow r) "lowHangingFruit"
      = .vstr (clean_text (getCell r "lowHangingFruit")) := by
  simp only [cleanTextRow, textColumns, List.foldl_cons, List.foldl_nil]
  rw [getCell_setCell_ne _ _ _ _ (by decide), getCell_setCell_ne _ _ _ _ (by decide),
    getCell_setCell_self, getCell_setCell_ne _ _ _ _ (by decide)]

theorem getCell_cleanTextRow_originalPost (r : Row) :
    getCell (cleanTextRow r) "originalPost"
      = .vstr (clean_text (getCell r "originalPost")) := by
  simp only [cleanTextRow, textColumns, List.foldl_cons, List.foldl_nil]
  rw [getCell_setCell_ne _ _ _ _ (by decide), getCell_setCell_self,
    getCell_setCell_ne _ _ _ _ (by decide), getCell_setCell_ne _ _ _ _ (by decide)]

theorem getCell_cleanTextRow_solution (r : Row) :
    getCell (cleanTextRow r) "solution"
      = .vstr (clean_text (getCell r "solution")) := by
  simp only [cleanTextRow, textColumns, List.foldl_cons, List.foldl_nil]
  rw [getCell_setCell_self, getCell_setCell_ne _ _ _ _ (by decide),
    getCell_setCell_ne _ _ _ _ (by decide), getCell_setCell_ne _ _ _ _ (by decide)]

theorem getCell_prepRow_other (hs hn : Bool) (r : Row) (c : String)
    (h1 : c ≠ "summary") (h2 : c ≠ "lowHangingFruit") (h3 : c ≠ "originalPost")
    (h4 : c ≠ "solution") (h5 : c ≠ "status") (h6 : c ≠ "notes") :
    getCell (prepRow hs hn r) c = getCell r c := by
  cases hs <;> cases hn <;>
    simp only [prepRow] <;>
    rw [getCell_setCell_ne _ _ _ _ h6] <;>
    first
      | rw [getCell_cleanTextRow_other r c h1 h2 h3 h4]
      | (rw [getCell_setCell_ne _ _ _ _ h6]
         first
           | rw [getCell_cleanTextRow_other r c h1 h2 h3 h4]
           | (rw [getCell_setCell_ne _ _ _ _ h5, getCell_cleanTextRow_other r c h1 h2 h3 h4]))
      | (rw [getCell_setCell_ne _ _ _ _ h5, getCell_cleanTextRow_other r c h1 h2 h3 h4])

theorem getCell_prepRow_summary (hs hn : Bool) (r : Row) :
    getCell (prepRow hs hn r) "summary" = .vstr (clean_text (getCell r "summary")) := by
  cases hs <;> cases hn <;>
    simp only [prepRow] <;>
    rw [getCell_setCell_ne _ _ _ _ (by decide)] <;>
    first
      | rw [getCell_cleanTextRow_summary r]
      | (rw [getCell_setCell_ne _ _ _ _ (by decide)]
         first
           | rw [getCell_cleanTextRow_summary r]
           | rw [getCell_setCell_ne _ _ _ _ (by decide), getCell_cleanTextRow_summary r])

theorem getCell_prepRow_lhf (hs hn : Bool) (r : Row) :
    getCell (prepRow hs hn r) "lowHangingFruit"
      = .vstr (clean_text (getCell r "lowHangingFruit")) := by
  cases hs <;> cases hn <;>
    simp only [prepRow] <;>
    rw [getCell_setCell_ne _ _ _ _ (by decide)] <;>
    first
      | rw [getCell_cleanTextRow_lhf r]
      | (rw [getCell_setCell_ne _ _ _ _ (by decide)]
         first
           | rw [getCell_cleanTextRow_lhf r]
           | rw [getCell_setCell_ne _ _ _ _ (by decide), getCell_cleanTextRow_lhf r])

theorem getCell_prepRow_originalPost (hs hn : Bool) (r : Row) :
    getCell (prepRow hs hn r) "originalPost"
      = .vstr (clean_text (getCell r "originalPost")) := by
  cases hs <;> cases hn <;>
    simp only [prepRow] <;>
    rw [getCell_setCell_ne _ _ _ _ (by decide)] <;>
    first
      | rw [getCell_cleanTextRow_originalPost r]
      | (rw [getCell_setCell_ne _ _ _ _ (by decide)]
         first
           | rw [getCell_cleanTextRow_originalPost r]
           | rw [getCell_setCell_ne _ _ _ _ (by decide), getCell_cleanTextRow_originalPost r])

theorem getCell_prepRow_solution (hs hn : Bool) (r : Row) :
    getCell (prepRow hs hn r) "solution"
      = .vstr (clean_text (getCell r "solution")) := by
  cases hs <;> cases hn <;>
    simp only [prepRow] <;>
    rw [getCell_setCell_ne _ _ _ _ (by decide)] <;>
    first
      | rw [getCell_cleanTextRow_solution r]
      | (rw [getCell_setCell_ne _ _ _ _ (by decide)]
         first
           | rw [getCell_cleanTextRow_solution r]
           | rw [getCell_setCell_ne _ _ _ _ (by decide), getCell_cleanTextRow_solution r])

theorem getCell_prepRow_status_default (hn : Bool) (r : Row) :
    getCell (prepRow false hn r) "status" = .vstr "New" := by
  cases hn <;>
    simp only [prepRow] <;>
    rw [getCell_setCell_ne _ _ _ _ (by decide)]
  · rw [getCell_setCell_ne _ _ _ _ (by decide), getCell_setCell_self]
  · rw [getCell_setCell_self]

theorem getCell_prepRow_notes_default (hs : Bool) (r : Row) :
    getCell (prepRow hs false r) "notes" = .vstr "" := by
  cases hs <;>
    simp only [prepRow] <;>
    rw [getCell_setCell_self, getCell_setCell_self] <;>
    rfl

theorem lookupUrlVal_eq_of_mem (E : List Row)
    (hU : (E.map (fun x => getCell x "url")).Nodup)
    (e : Row) (he : e ∈ E) (col : String) :
    lookupUrlVal E col (getCell e "url") = some (getCell e col) := by
  have hex : ∃ x ∈ E.reverse, (getCell x "url" == getCell e "url") = true :=
    ⟨e, List.mem_reverse.mpr he, by simp⟩
  have hsome : (E.reverse.find? (fun x => getCell x "url" == getCell e "url")).isSome :=
    List.find?_isSome.mpr hex
  obtain ⟨e2, he2⟩ := Option.isSome_iff_exists.mp hsome
  have hp := List.find?_some he2
  have hmem : e2 ∈ E := List.mem_reverse.mp (List.mem_of_find?_eq_some he2)
  have hequrl : getCell e2 "url" = getCell e "url" := by simpa using hp
  have he3 : e2 = e := List.inj_on_of_nodup_map hU hmem he hequrl
  simp only [lookupUrlVal, he2, Option.map_some]
  rw [he3]
  rfl

theorem lookupUrlVal_eq_none (E : List Row) (u : Val) (col : String)
    (h : ∀ e ∈ E, getCell e "url" ≠ u) :
    lookupUrlVal E col u = none := by
  have hfind : E.reverse.find? (fun x => getCell x "url" == u) = none :=
    List.find?_eq_none.mpr (fun x hx => by simpa using h x (List.mem_reverse.mp hx))
  simp [lookupUrlVal, hfind]

theorem mergeRow_matched (E : List Row) (r : Row) (e : Row)
    (hU : (E.map (fun x => getCell x "url")).Nodup) (he : e ∈ E)
    (heq : getCell e "url" = getCell r "url") :
    getCell (mergeRow E r) "status" = getCell e "status" ∧
    getCell (mergeRow E r) "notes" = .vstr (astypeStr (fillnaEmpty (getCell e "notes"))) := by
  have hs := lookupUrlVal_eq_of_mem E hU e he "status"
  have hn := lookupUrlVal_eq_of_mem E hU e he "notes"
  rw [heq] at hs hn
  simp only [mergeRow, hs, hn]
  constructor
  · rw [getCell_setCell_ne _ _ _ _ (by decide), getCell_setCell_self]
  · rw [getCell_setCell_self]

theorem mergeRow_unmatched (E : List Row) (r : Row)
    (h : ∀ e ∈ E, getCell e "url" ≠ getCell r "url") :
    mergeRow E r = r := by
  have hs := lookupUrlVal_eq_none E (getCell r "url") "status" h
  have hn := lookupUrlVal_eq_none E (getCell r "url") "notes" h
  simp [mergeRow, hs, hn]

theorem getCell_mergeRow_other (E : List Row) (r : Row) (c : String)
    (h1 : c ≠ "status") (h2 : c ≠ "notes") :
    getCell (mergeRow E r) c = getCell r c := by
  simp only [mergeRow]
  cases lookupUrlVal E "status" (getCell r "url") with
  | none =>
    cases lookupUrlVal E "notes" (getCell r "url") with
    | none => rfl
    | some v => rw [getCell_setCell_ne _ _ _ _ h2]
  | some v =>
    cases lookupUrlVal E "notes" (getCell r "url") with
    | none => rw [getCell_setCell_ne _ _ _ _ h1]
    | some w => rw [getCell_setCell_ne _ _ _ _ h2, getCell_setCell_ne _ _ _ _ h1]

theorem syncPrepared_rows (I : Table) :
    (syncPrepared I).rows
      = I.rows.map (prepRow (I.cols.contains "status") (I.cols.contains "notes")) := by
  cases hs : I.cols.contains "status" with
  | true =>
    cases hn : I.cols.contains "notes" with
    | true =>
      simp only [syncPrepared, hs, hn, if_true, List.map_map]
      apply List.map_congr_left
      intro r _
      rfl
    | false =>
      simp only [syncPrepared, hs, hn, if_true, Bool.false_eq_true, if_false, addColumn,
        List.map_map]
      apply List.map_congr_left
      intro r _
      rfl
  | false =>
    have hc : (I.cols ++ ["status"]).contains "notes" = I.cols.contains "notes" :=
      contains_append_ne I.cols "status" "notes" (by decide)
    cases hn : I.cols.contains "notes" with
    | true =>
      simp only [syncPrepared, hs, hn, Bool.false_eq_true, if_false, addColumn, hc, if_true,
        List.map_map]
      apply List.map_congr_left
      intro r _
      rfl
    | false =>
      simp only [syncPrepared, hs, hn, Bool.false_eq_true, if_false, addColumn, hc,
        List.map_map]
      apply List.map_congr_left
      intro r _
      rfl

theorem syncPrepared_length (I : Table) :
    (syncPrepared I).rows.length = I.rows.length := by
  rw [syncPrepared_rows, List.length_map]

theorem map_getD_row (l : List Row) (f : Row → Row) (k : Nat) (hk : k < l.length) :
    (l.map f).getD k [] = f (l.getD k []) := by
  rw [List.getD_eq_getElem?_getD, List.getElem?_map, List.getD_eq_getElem?_getD,
    List.getElem?_eq_getElem hk]
  rfl

theorem getD_eq_getElem_row (l : List Row) (k : Nat) (hk : k < l.length) :
    l.getD k [] = l.get ⟨k, hk⟩ := by
  rw [List.getD_eq_getElem?_getD, List.getElem?_eq_getElem hk]
  simp [List.get_eq_getElem]

theorem sync_leads_success (I : Table) (st : LMState)
    (hfil : requiredColumns.filter (fun c => !(I.cols.contains c)) = []) :
    sync_leads (.ok I) st
      = ((true, none), { leads := syncMerged I st, stored := some (syncMerged I st) }) := by
  simp only [sync_leads]
  rw [if_pos (by rw [hfil]; rfl)]

/-- C1: for every existing table with unique urls and string notes, and
every import carrying all required columns, `sync_leads` succeeds and the
resulting table consists exactly of the imported rows: urls are those of
the import (so existing rows with urls absent from the import are
dropped); date, url and subreddit come from the import and the four text
fields are the cleaned import values; a row whose url occurs in the
existing table takes that row's status and notes; a row whose url is new
gets status 'New' and empty notes when the import carried no status/notes
columns. -/
theorem sync_leads_reconcile (I : Table) (st : LMState)
    (hreq : ∀ c ∈ requiredColumns, c ∈ I.cols)
    (hU : (st.leads.rows.map (fun e => getCell e "url")).Nodup)
    (hN : ∀ e ∈ st.leads.rows, ∃ s2, getCell e "notes" = Val.vstr s2) :
    (sync_leads (.ok I) st).1 = (true, none) ∧
    ((sync_leads (.ok I) st).2.leads).rows.length = I.rows.length ∧
    ((sync_leads (.ok I) st).2.leads).rows.map (fun r => getCell r "url")
        = I.rows.map (fun r => getCell r "url") ∧
    ∀ k, k < I.rows.length →
      (getCell (((sync_leads (.ok I) st).2.leads).rows.getD k []) "url"
          = getCell (I.rows.getD k []) "url" ∧
       getCell (((sync_leads (.ok I) st).2.leads).rows.getD k []) "date"
          = getCell (I.rows.getD k []) "date" ∧
       getCell (((sync_leads (.ok I) st).2.leads).rows.getD k []) "subreddit"
          = getCell (I.rows.getD k []) "subreddit" ∧
       getCell (((sync_leads (.ok I) st).2.leads).rows.getD k []) "summary"
          = .vstr (clean_text (getCell (I.rows.getD k []) "summary")) ∧
       getCell (((sync_leads (.ok I) st).2.leads).rows.getD k []) "lowHangingFruit"
          = .vstr (clean_text (getCell (I.rows.getD k []) "lowHangingFruit")) ∧
       getCell (((sync_leads (.ok I) st).2.leads).rows.getD k []) "originalPost"
          = .vstr (clean_text (getCell (I.rows.getD k []) "originalPost")) ∧
       getCell (((sync_leads (.ok I) st).2.leads).rows.getD k []) "solution"
          = .vstr (clean_text (getCell (I.rows.getD k []) "solution")) ∧
       (∀ e ∈ st.leads.rows,
          getCell e "url" = getCell (I.rows.getD k []) "url" →
          getCell (((sync_leads (.ok I) st).2.leads).rows.getD k []) "status"
              = getCell e "status" ∧
          getCell (((sync_leads (.ok I) st).2.leads).rows.getD k []) "notes"
              = getCell e "notes") ∧
       ((∀ e ∈ st.leads.rows, getCell e "url" ≠ getCell (I.rows.getD k []) "url") →
          "status" ∉ I.cols → "notes" ∉ I.cols →
          getCell (((sync_leads (.ok I) st).2.leads).rows.getD k []) "status" = .vstr "New" ∧
          getCell (((sync_leads (.ok I) st).2.leads).rows.getD k []) "notes" = .vstr "")) := by
  have hfil : requiredColumns.filter (fun c => !(I.cols.contains c)) = [] := by
    rw [List.filter_eq_nil_iff]
    intro c hc
    have hcc : I.cols.contains c = true := (contains_iff_mem I.cols c).mpr (hreq c hc)
    simp [hcc]
    exact hreq c hc
  have hsync := sync_leads_success I st hfil
  have hR : (sync_leads (.ok I) st).2.leads = syncMerged I st := by rw [hsync]
  have hplen := syncPrepared_length I
  have hmlen : (syncMerged I st).rows.length = I.rows.length := by
    simp only [syncMerged]
    by_cases hemp2 : st.leads.rows.isEmpty = true
    · rw [if_pos hemp2]
      exact hplen
    · rw [if_neg hemp2, List.length_map]
      exact hplen
  have hrowk : ∀ k, k < I.rows.length →
      (syncMerged I st).rows.getD k []
        = (if st.leads.rows.isEmpty = true
           then prepRow (I.cols.contains "status") (I.cols.contains "notes") (I.rows.getD k [])
           else mergeRow st.leads.rows
             (prepRow (I.cols.contains "status") (I.cols.contains "notes")
               (I.rows.getD k []))) := by
    intro k hk
    simp only [syncMerged]
    by_cases hemp2 : st.leads.rows.isEmpty = true
    · rw [if_pos hemp2, if_pos hemp2, syncPrepared_rows, map_getD_row _ _ k hk]
    · have hk2 : k < (syncPrepared I).rows.length := by
        rw [hplen]
        exact hk
      rw [if_neg hemp2, if_neg hemp2, map_getD_row _ _ k hk2, syncPrepared_rows,
        map_getD_row _ _ k hk]
  have hurl : ∀ k, k < I.rows.length →
      getCell ((syncMerged I st).rows.getD k []) "url" = getCell (I.rows.getD k []) "url" := by
    intro k hk
    rw [hrowk k hk]
    by_cases hemp2 : st.leads.rows.isEmpty = true
    · rw [if_pos hemp2, getCell_prepRow_other _ _ _ _ (by decide) (by decide) (by decide)
        (by decide) (by decide) (by decide)]
    · rw [if_neg hemp2, getCell_mergeRow_other _ _ _ (by decide) (by decide),
        getCell_prepRow_other _ _ _ _ (by decide) (by decide) (by decide) (by decide)
        (by decide) (by decide)]
  refine ⟨by rw [hsync], ?_, ?_, ?_⟩
  · rw [hR]
    exact hmlen
  · rw [hR]
    refine List.ext_getElem (by rw [List.length_map, List.length_map, hmlen]) ?_
    intro n h1 h2
    rw [List.getElem_map, List.getElem_map]
    have hn2 : n < I.rows.length := by
      rw [List.length_map] at h2
      exact h2
    have hn1 : n < (syncMerged I st).rows.length := by
      rw [List.length_map] at h1
      exact h1
    have hu := hurl n hn2
    rw [getD_eq_getElem_row _ n hn1, getD_eq_getElem_row _ n hn2] at hu
    simpa [List.get_eq_getElem] using hu
  · intro k hk
    rw [hR, hrowk k hk]
    refine ⟨?_, ?_, ?_, ?_, ?_, ?_, ?_, ?_, ?_⟩
    · by_cases hemp2 : st.leads.rows.isEmpty = true
      · rw [if_pos hemp2, getCell_prepRow_other _ _ _ _ (by decide) (by decide) (by decide)
          (by decide) (by decide) (by decide)]
      · rw [if_neg hemp2, getCell_mergeRow_other _ _ _ (by decide) (by decide),
          getCell_prepRow_other _ _ _ _ (by decide) (by decide) (by decide) (by decide)
          (by decide) (by decide)]
    · by_cases hemp2 : st.leads.rows.isEmpty = true
      · rw [if_pos hemp2, getCell_prepRow_other _ _ _ _ (by decide) (by decide) (by decide)
          (by decide) (by decide) (by decide)]
      · rw [if_neg hemp2, getCell_mergeRow_other _ _ _ (by decide) (by decide),
          getCell_prepRow_other _ _ _ _ (by decide) (by decide) (by decide) (by decide)
          (by decide) (by decide)]
    · by_cases hemp2 : st.leads.rows.isEmpty = true
      · rw [if_pos hemp2, getCell_prepRow_other _ _ _ _ (by decide) (by decide) (by decide)
          (by decide) (by decide) (by decide)]
      · rw [if_neg hemp2, getCell_mergeRow_other _ _ _ (by decide) (by decide),
          getCell_prepRow_other _ _ _ _ (by decide) (by decide) (by decide) (by decide)
          (by decide) (by decide)]
    · by_cases hemp2 : st.leads.rows.isEmpty = true
      · rw [if_pos hemp2, getCell_prepRow_summary]
      · rw [if_neg hemp2, getCell_mergeRow_other _ _ _ (by decide) (by decide),
          getCell_prepRow_summary]
    · by_cases hemp2 : st.leads.rows.isEmpty = true
      · rw [if_pos hemp2, getCell_prepRow_lhf]
      · rw [if_neg hemp2, getCell_mergeRow_other _ _ _ (by decide) (by decide),
          getCell_prepRow_lhf]
    · by_cases hemp2 : st.leads.rows.isEmpty = true
      · rw [if_pos hemp2, getCell_prepRow_originalPost]
      · rw [if_neg hemp2, getCell_mergeRow_other _ _ _ (by decide) (by decide),
          getCell_prepRow_originalPost]
    · by_cases hemp2 : st.leads.rows.isEmpty = true
      · rw [if_pos hemp2, getCell_prepRow_solution]
      · rw [if_neg hemp2, getCell_mergeRow_other _ _ _ (by decide) (by decide),
          getCell_prepRow_solution]
    · intro e he heq
      have hempF : st.leads.rows.isEmpty = false := by
        rw [Bool.eq_false_iff]
        intro htrue
        rw [List.isEmpty_iff] at htrue
        rw [htrue] at he
        exact List.not_mem_nil e he
      rw [if_neg (by rw [hempF]; exact Bool.false_ne_true)]
      have hequrl2 : getCell e "url"
          = getCell (prepRow (I.cols.contains "status") (I.cols.contains "notes")
              (I.rows.getD k [])) "url" := by
        rw [getCell_prepRow_other _ _ _ _ (by decide) (by decide) (by decide) (by decide)
          (by decide) (by decide)]
        exact heq
      obtain ⟨hst, hnt⟩ := mergeRow_matched st.leads.rows _ e hU he hequrl2
      refine ⟨hst, ?_⟩
      obtain ⟨s2, hs2⟩ := hN e he
      rw [hnt, hs2]
      rfl
    · intro hnomatch hsno hnno
      have hs0 : I.cols.contains "status" = false := by
        rw [Bool.eq_false_iff]
        intro ht
        exact hsno ((contains_iff_mem _ _).mp ht)
      have hn0 : I.cols.contains "notes" = false := by
        rw [Bool.eq_false_iff]
        intro ht
        exact hnno ((contains_iff_mem _ _).mp ht)
      have hmu : mergeRow st.leads.rows
          (prepRow (I.cols.contains "status") (I.cols.contains "notes") (I.rows.getD k []))
          = prepRow (I.cols.contains "status") (I.cols.contains "notes") (I.rows.getD k []) := by
        apply mergeRow_unmatched
        intro e he
        rw [getCell_prepRow_other _ _ _ _ (by decide) (by decide) (by decide) (by decide)
          (by decide) (by decide)]
        exact hnomatch e he
      constructor
      · by_cases hemp2 : st.leads.rows.isEmpty = true
        · rw [if_pos hemp2, hs0, getCell_prepRow_status_default]
        · rw [if_neg hemp2, hmu, hs0, getCell_prepRow_status_default]
      · by_cases hemp2 : st.leads.rows.isEmpty = true
        · rw [if_pos hemp2, hn0, getCell_prepRow_notes_default]
        · rw [if_neg hemp2, hmu, hn0, getCell_prepRow_notes_default]

/-- C1 witness: reconciling the two-row import against the one-lead
existing state carries the stored status and notes onto the matching row. -/
theorem sync_leads_reconcile_witness :
    getCell (((sync_leads (.ok importTable1) existingState).2.leads).rows.getD 0 []) "status"
        = getCell leadRow1 "status" ∧
    getCell (((sync_leads (.ok importTable1) existingState).2.leads).rows.getD 0 []) "notes"
        = getCell leadRow1 "notes" :=
  (((sync_leads_reconcile importTable1 existingState
        (by decide) (by decide)
        (fun e he => by
          simp only [existingState, List.mem_singleton] at he
          subst he
          exact ⟨"called", rfl⟩)).2.2.2 0 (by decide)).2.2.2.2.2.2.2.1
    leadRow1 (by decide) (by decide))
